import Mathlib

/-!
Verification of the text-to-structured-insight extraction and aggregation
pipeline of the Hiring Job Description Generator repository.

The definitions below are a shallow embedding, translated from
`src/analyzers/nlp_analyzer.py`, `src/core/models.py` and
`src/core/exceptions.py`.  Python strings are modelled as Lean `String`
(operating on `String.data : List Char`), Python `int` as `Nat`
(all quantities involved are non-negative), Python `None`-able values as
`Option`, Python dicts with fixed key sets as structures with `Option`
fields for keys that may be absent, and Python exceptions as `Except`.
The regular expressions used by the analyzer are simple enough that each
is translated into an explicit scanner over `List Char` with the same
leftmost-match semantics as `re.search` / `re.findall`; greediness is
resolved statically (for every pattern below the greedy choice is the only
one that can succeed, so no backtracking is needed).

The analyzer's optional spaCy path (`_extract_skills_nlp`) is an external
non-deterministic backend; the embedding models the deterministic
rule-based path, which is the path taken when spaCy is unavailable and is
the behaviour the specification's claims describe.

Character classes follow the ASCII behaviour of Python's `re` module
(`\w` = letters, digits, underscore; `\s` = whitespace); all inputs in
the repository and in the claims are ASCII.
-/

/-! ## Basic character and string utilities -/

/-- Python `\w` (word character), ASCII fragment: letter, digit or underscore. -/
def isWordChar (c : Char) : Bool := c.isAlphanum || c = '_'

/-- Whether an optional character (a boundary neighbour; `none` = string edge)
is NOT a word character.  `\b` next to a word character requires exactly
this of the neighbouring position. -/
def notWordOpt : Option Char → Bool
  | none => true
  | some c => !isWordChar c

/-- Case-insensitive strip of a pattern `w` (given in lowercase) from the
front of `t`; returns the remainder on success. -/
def stripPrefixCI : List Char → List Char → Option (List Char)
  | [], t => some t
  | _ :: _, [] => none
  | c :: cs, d :: ds => if d.toLower = c then stripPrefixCI cs ds else none

/-- Exact (case-sensitive) prefix test. -/
def hasPrefixList : List Char → List Char → Bool
  | [], _ => true
  | _ :: _, [] => false
  | p :: ps, c :: cs => p = c && hasPrefixList ps cs

/-- Exact (case-sensitive) strip of a pattern from the front of `t`. -/
def stripPrefixList : List Char → List Char → Option (List Char)
  | [], t => some t
  | _ :: _, [] => none
  | p :: ps, c :: cs => if p = c then stripPrefixList ps cs else none

/-- The last character of `t1`, or `prev` when `t1` is empty.  Used to track
the character preceding the current scan position. -/
def lastOpt (prev : Option Char) : List Char → Option Char
  | [] => prev
  | c :: cs => lastOpt (some c) cs

/-- Scanner for the regex `\b w \b` with `re.IGNORECASE`, where `w` is a
literal (given lowercase) that starts and ends with a word character —
which holds for every keyword and every taxonomy phrase the analyzer
uses.  `prev` is the character before the current position (`none` at the
start of the string). -/
def containsWordAux (w : List Char) : Option Char → List Char → Bool
  | _, [] => false
  | prev, d :: ds =>
    (notWordOpt prev &&
      (match stripPrefixCI w (d :: ds) with
       | some rest => notWordOpt rest.head?
       | none => false))
    || containsWordAux w (some d) ds

/-- `re.search(r'\b' + re.escape(w) + r'\b', t, re.IGNORECASE) is not None`
for a literal `w` (lowercase, starting and ending with a word character). -/
def containsWord (w : String) (t : String) : Bool :=
  containsWordAux w.data none t.data

/-- Plain (case-sensitive) substring containment, Python's `pat in t`. -/
def containsList (pat : List Char) : List Char → Bool
  | [] => pat.isEmpty
  | c :: cs => hasPrefixList pat (c :: cs) || containsList pat cs

/-- Python `str.lower()` on the character list (ASCII). -/
def lowerL (l : List Char) : List Char := l.map Char.toLower

/-- Python `str.strip()`: drop whitespace from both ends. -/
def pyStripL (l : List Char) : List Char :=
  ((l.dropWhile Char.isWhitespace).reverse.dropWhile Char.isWhitespace).reverse

/-- Python `text.split('\n')`: split on newlines, keeping empty pieces. -/
def splitLinesAux (cur : List Char) : List Char → List (List Char)
  | [] => [cur.reverse]
  | c :: cs =>
    if c = '\n' then cur.reverse :: splitLinesAux [] cs
    else splitLinesAux (c :: cur) cs

def splitLines (l : List Char) : List (List Char) := splitLinesAux [] l

/-- Maximal digit prefix of a character list (regex `\d+`, greedy). -/
def takeDigits : List Char → (List Char × List Char)
  | [] => ([], [])
  | c :: cs =>
    if c.isDigit then
      let (d, r) := takeDigits cs
      (c :: d, r)
    else ([], c :: cs)

/-- Numeric value of a digit string (Python `int` on a digit literal). -/
def digitsToNat (ds : List Char) : Nat :=
  ds.foldl (fun n c => 10 * n + (c.toNat - '0'.toNat)) 0

/-! ## `JobDescription` (src/core/models.py, class JobDescription)

Pydantic model: `title`/`company` are required with character length in
[1, 200], `description` is required with `min_length=10` plus the
`validate_description` field validator requiring at least 50
whitespace-separated words.  `location` and `salary_range` are optional
free-form strings. -/

structure JobDescription where
  title : String
  company : String
  location : Option String
  salary_range : Option String
  description : String
deriving Repr, DecidableEq

/-- Word counter matching Python `len(v.split())`: number of maximal runs
of non-whitespace characters.  `inWord` records whether the previous
character was part of a word. -/
def countWordsAux : Bool → List Char → Nat
  | _, [] => 0
  | inWord, c :: cs =>
    if c.isWhitespace then countWordsAux false cs
    else (if inWord then 0 else 1) + countWordsAux true cs

def countWords (s : String) : Nat := countWordsAux false s.data

/-- Pydantic construction of a `JobDescription`: field constraints
(`min_length`/`max_length`), then the `validate_description` validator
(`if len(v.split()) < 50: raise ValueError(...)`).  A failure of any check
is a pydantic `ValidationError`. -/
def JobDescription.construct (title company : String)
    (location salary_range : Option String) (description : String) :
    Except String JobDescription :=
  if title.length < 1 ∨ 200 < title.length then
    .error "title length out of range"
  else if company.length < 1 ∨ 200 < company.length then
    .error "company length out of range"
  else if description.length < 10 then
    .error "description shorter than min_length 10"
  else if countWords description < 50 then
    .error "Description must contain at least 50 words"
  else
    .ok ⟨title, company, location, salary_range, description⟩

/-! ## Skill taxonomy (`NLPAnalyzer._build_skill_patterns`) -/

/-- The default skill taxonomy, in the source's category and phrase order. -/
def skill_patterns : List (String × List String) :=
  [ ("product_management",
      [ "product strategy", "product vision", "roadmap", "roadmapping",
        "product lifecycle", "product development", "product planning",
        "feature prioritization", "backlog management", "user stories",
        "product metrics", "product analytics", "kpis" ]),
    ("technical",
      [ "sql", "python", "api", "rest", "graphql", "json", "xml",
        "cloud", "aws", "azure", "gcp", "kubernetes", "docker",
        "microservices", "system design", "architecture", "technical specifications",
        "data structures", "algorithms", "database", "nosql" ]),
    ("analytics",
      [ "data analysis", "analytics", "a/b testing", "experimentation",
        "metrics", "kpi", "tableau", "google analytics", "mixpanel",
        "amplitude", "sql", "excel", "statistics", "data-driven",
        "quantitative analysis", "cohort analysis", "funnel analysis" ]),
    ("design",
      [ "ux", "ui", "user experience", "user interface", "wireframing",
        "prototyping", "figma", "sketch", "adobe xd", "invision",
        "user research", "usability testing", "design thinking" ]),
    ("business",
      [ "business strategy", "market analysis", "competitive analysis",
        "go-to-market", "gtm", "pricing", "monetization", "revenue",
        "p&l", "roi", "business case", "financial modeling",
        "market research", "customer segmentation" ]),
    ("agile",
      [ "agile", "scrum", "kanban", "sprint", "jira", "confluence",
        "standup", "retrospective", "sprint planning", "agile methodologies" ]),
    ("leadership",
      [ "stakeholder management", "cross-functional", "leadership",
        "team management", "mentoring", "coaching", "influence",
        "communication", "presentation", "executive communication" ]),
    ("domain",
      [ "saas", "b2b", "b2c", "enterprise", "consumer", "mobile",
        "web", "platform", "marketplace", "e-commerce", "fintech",
        "healthtech", "edtech", "marketplace" ]) ]

/-- All taxonomy phrases in category-iteration order (the order in which the
Python `for category, skill_list in ...: for skill in skill_list:` loops
visit them). -/
def allTaxonomySkills : List String := (skill_patterns.map Prod.snd).flatten

/-- Keep the first occurrence of each element, dropping later duplicates
(`seen` accumulates the elements already emitted). -/
def dedupFirstAux (seen : List String) : List String → List String
  | [] => []
  | x :: xs =>
    if x ∈ seen then dedupFirstAux seen xs
    else x :: dedupFirstAux (x :: seen) xs

def dedupFirst (l : List String) : List String := dedupFirstAux [] l

/-- `NLPAnalyzer._extract_skills_rules`: for each taxonomy phrase test
`re.search(r'\b' + re.escape(skill) + r'\b', text, re.IGNORECASE)` and
collect the matching phrases.  The Python function accumulates into a
`set` and returns `list(skills)`; the set is modelled as the matching
phrases deduplicated in taxonomy-iteration order (only membership in the
result is relied upon downstream; the claims are membership claims). -/
def _extract_skills_rules (text : String) : List String :=
  dedupFirst (allTaxonomySkills.filter (fun skill => containsWord skill text))

/-- First taxonomy category whose phrase list contains `skill` — the
`for category ...: if skill in skill_list: ...; break` inner loop of
`_categorize_skills`. -/
def firstCategoryOf (skill : String) : Option String :=
  (skill_patterns.find? (fun p => p.2.contains skill)).map Prod.fst

/-- Append `skill` to the bucket of category `cat` in an association list. -/
def addToCategory (cat skill : String) :
    List (String × List String) → List (String × List String)
  | [] => []
  | p :: ps =>
    if p.1 = cat then (p.1, p.2 ++ [skill]) :: ps
    else p :: addToCategory cat skill ps

/-- `NLPAnalyzer._categorize_skills`: start from empty buckets in taxonomy
order, place each skill into the first category containing it (`break`),
then drop empty buckets. -/
def _categorize_skills (skills : List String) : List (String × List String) :=
  let initial := skill_patterns.map (fun p => (p.1, ([] : List String)))
  let categorized := skills.foldl
    (fun acc skill =>
      match firstCategoryOf skill with
      | some cat => addToCategory cat skill acc
      | none => acc)
    initial
  categorized.filter (fun p => !p.2.isEmpty)

/-! ## Experience level (`_extract_experience_level`, `_extract_years_experience`) -/

/-- `re.search(r'\blead\b|\bprincipal\b|\bstaff\b', text_lower) is not None`. -/
def hasLeadTerm (t : String) : Bool :=
  containsWord "lead" t || containsWord "principal" t || containsWord "staff" t

/-- `re.search(r'\bsenior\b|\bsr\.?\b', text_lower) is not None`.
`\bsr\.?\b` matches exactly where `\bsr\b` does: after "sr", either the
next character is a word character (then the alternative with the literal
dot needs that dot, while without the dot `\b` fails — both fail unless
the dot is present, in which case `\b` already holds between "r" and ".")
or it is not (then `\b` holds directly). -/
def hasSeniorTerm (t : String) : Bool :=
  containsWord "senior" t || containsWord "sr" t

/-- `re.search(r'\bentry\b|\bjunior\b|\bassociate\b', text_lower) is not None`. -/
def hasEntryTerm (t : String) : Bool :=
  containsWord "entry" t || containsWord "junior" t || containsWord "associate" t

/-- Attempt of pattern `(\d+)\+?\s*(?:to|\-|–)\s*(\d+)?\s*years?`
(with `re.IGNORECASE`) anchored at the current position; returns the value
of group 1 on success.  Greedy sub-matches are forced: none of the pieces
that follow a greedy piece can consume a character the greedy piece took. -/
def matchYears1At (cs : List Char) : Option Nat :=
  let (ds, r1) := takeDigits cs
  if ds.isEmpty then none
  else
    let r2 := match r1 with
      | '+' :: rest => rest
      | _ => r1
    let r3 := r2.dropWhile Char.isWhitespace
    let sep : Option (List Char) :=
      match stripPrefixCI ['t', 'o'] r3 with
      | some rest => some rest
      | none =>
        match r3 with
        | '-' :: rest => some rest
        | '–' :: rest => some rest
        | _ => none
    match sep with
    | none => none
    | some r4 =>
      let r5 := r4.dropWhile Char.isWhitespace
      let (_, r6) := takeDigits r5
      let r7 := r6.dropWhile Char.isWhitespace
      match stripPrefixCI ['y', 'e', 'a', 'r'] r7 with
      | some _ => some (digitsToNat ds)
      | none => none

/-- Attempt of pattern `(\d+)\+?\s*years?` (with `re.IGNORECASE`) anchored
at the current position; returns the value of group 1 on success. -/
def matchYears2At (cs : List Char) : Option Nat :=
  let (ds, r1) := takeDigits cs
  if ds.isEmpty then none
  else
    let r2 := match r1 with
      | '+' :: rest => rest
      | _ => r1
    let r3 := r2.dropWhile Char.isWhitespace
    match stripPrefixCI ['y', 'e', 'a', 'r'] r3 with
    | some _ => some (digitsToNat ds)
    | none => none

/-- Leftmost-match search (`re.search`): try each start position left to
right. -/
def searchYears1 : List Char → Option Nat
  | [] => none
  | c :: cs =>
    match matchYears1At (c :: cs) with
    | some n => some n
    | none => searchYears1 cs

def searchYears2 : List Char → Option Nat
  | [] => none
  | c :: cs =>
    match matchYears2At (c :: cs) with
    | some n => some n
    | none => searchYears2 cs

/-- `NLPAnalyzer._extract_years_experience`: try the range pattern first,
then the single-number pattern; return the first captured number. -/
def _extract_years_experience (text : String) : Option Nat :=
  match searchYears1 text.data with
  | some n => some n
  | none => searchYears2 text.data

/-- `NLPAnalyzer._extract_experience_level`.  Note the Python
`if years:` on the `Optional[int]`: a returned `0` is falsy and takes the
same branch as "no years found". -/
def _extract_experience_level (text : String) : String :=
  if hasLeadTerm text then "Lead/Principal"
  else if hasSeniorTerm text then "Senior"
  else if hasEntryTerm text then "Entry-Level"
  else
    match _extract_years_experience text with
    | some years =>
      if years = 0 then "Mid-Level"
      else if 10 ≤ years then "Lead/Principal"
      else if 6 ≤ years then "Senior"
      else if 3 ≤ years then "Mid-Level"
      else "Entry-Level"
    | none => "Mid-Level"

/-! ## Salary parsing (`_extract_salary_info`, `_parse_salary`)

The findall pattern is `\$?(\d{1,3}(?:,\d{3})*(?:k|K)?)`; the in-text
search pattern is
`\$(\d{1,3}(?:,\d{3})*(?:k|K)?)\s*(?:to|\-|–)\s*\$?(\d{1,3}(?:,\d{3})*(?:k|K)?)`
(no IGNORECASE).  Both are compiled into explicit scanners. -/

/-- Greedy `\d{1,n}` (including `{0,n}` when no digit is present):
take at most `n` leading digits. -/
def takeDigitsUpTo : Nat → List Char → (List Char × List Char)
  | 0, cs => ([], cs)
  | _ + 1, [] => ([], [])
  | n + 1, c :: cs =>
    if c.isDigit then
      (c :: (takeDigitsUpTo n cs).1, (takeDigitsUpTo n cs).2)
    else ([], c :: cs)

/-- Greedy `(?:,\d{3})*`: consume comma-plus-three-digit groups. -/
def takeCommaGroups : List Char → (List Char × List Char)
  | ',' :: a :: b :: c :: rest =>
    if a.isDigit && b.isDigit && c.isDigit then
      (',' :: a :: b :: c :: (takeCommaGroups rest).1, (takeCommaGroups rest).2)
    else ([], ',' :: a :: b :: c :: rest)
  | cs => ([], cs)

/-- Anchored match of the capture group `(\d{1,3}(?:,\d{3})*(?:k|K)?)`:
returns the group text and the remaining input.  The pieces following
each greedy sub-pattern cannot consume characters the greedy sub-pattern
accepted (a digit is neither `,` followed by three digits, nor `k`/`K`),
so greedy matching without backtracking is exact. -/
def matchNumTokenAt (cs : List Char) : Option (List Char × List Char) :=
  let ds := (takeDigitsUpTo 3 cs).1
  let r1 := (takeDigitsUpTo 3 cs).2
  if ds.isEmpty then none
  else
    let gs := (takeCommaGroups r1).1
    let r2 := (takeCommaGroups r1).2
    match r2 with
    | 'k' :: rest => some (ds ++ gs ++ ['k'], rest)
    | 'K' :: rest => some (ds ++ gs ++ ['K'], rest)
    | _ => some (ds ++ gs, r2)

/-- Anchored match of `\$?(\d{1,3}(?:,\d{3})*(?:k|K)?)`: an optional
leading `$` (consuming it is the only way the group, which must start with
a digit, can follow). -/
def matchSalaryTokenAt (cs : List Char) : Option (List Char × List Char) :=
  match cs with
  | '$' :: rest => matchNumTokenAt rest
  | _ => matchNumTokenAt cs

/-- `re.findall` of `\$?(\d{1,3}(?:,\d{3})*(?:k|K)?)` over `cs`: scan left
to right; on a match, emit the group and continue after the match; else
advance one position.  The recursion is structural on a fuel argument so
that the definition computes by kernel reduction; `findSalaryTokens`
supplies `cs.length` as fuel, which never runs out because each step
consumes at least one character (`findSalaryTokensAux_fuel` below shows
the result does not depend on the fuel once it is at least the input
length). -/
def findSalaryTokensAux : Nat → List Char → List (List Char)
  | 0, _ => []
  | _ + 1, [] => []
  | fuel + 1, c :: cs =>
    match matchSalaryTokenAt (c :: cs) with
    | some (tok, rest) => tok :: findSalaryTokensAux fuel rest
    | none => findSalaryTokensAux fuel cs

def findSalaryTokens (cs : List Char) : List (List Char) :=
  findSalaryTokensAux cs.length cs

/-- `NLPAnalyzer._parse_salary`: drop `,` and `$`, read a trailing `k`/`K`
as ×1000, convert to an integer.  (On the digit/comma/`k` tokens produced
by `findSalaryTokens` the Python `int()` conversion cannot fail, so the
caller's `except` branch is dead code and the function is total here.) -/
def _parse_salary (s : List Char) : Nat :=
  let s' := s.filter (fun c => !(c = ',' || c = '$'))
  match s'.getLast? with
  | some 'k' => digitsToNat s'.dropLast * 1000
  | some 'K' => digitsToNat s'.dropLast * 1000
  | _ => digitsToNat s'

/-- Anchored match of the in-text pattern
`\$(\d{1,3}(?:,\d{3})*(?:k|K)?)\s*(?:to|\-|–)\s*\$?(\d{1,3}(?:,\d{3})*(?:k|K)?)`
(case-sensitive), returning the two capture groups. -/
def matchSalaryPairAt (cs : List Char) : Option (List Char × List Char) :=
  match cs with
  | '$' :: r0 =>
    match matchNumTokenAt r0 with
    | none => none
    | some (g1, r1) =>
      let r2 := r1.dropWhile Char.isWhitespace
      let sep : Option (List Char) :=
        match r2 with
        | 't' :: 'o' :: rest => some rest
        | '-' :: rest => some rest
        | '–' :: rest => some rest
        | _ => none
      match sep with
      | none => none
      | some r3 =>
        let r4 := r3.dropWhile Char.isWhitespace
        let r5 := match r4 with
          | '$' :: rest => rest
          | _ => r4
        match matchNumTokenAt r5 with
        | none => none
        | some (g2, _) => some (g1, g2)
  | _ => none

/-- `re.search` of the in-text salary pattern: leftmost match. -/
def searchSalaryPair : List Char → Option (List Char × List Char)
  | [] => none
  | c :: cs =>
    match matchSalaryPairAt (c :: cs) with
    | some g => some g
    | none => searchSalaryPair cs

/-- The dict returned by `_extract_salary_info`: `min`/`max`/`average` are
present together when parsing succeeded; `range` is present whenever a
salary-range string was available. -/
structure SalaryInfo where
  min : Option Nat
  max : Option Nat
  average : Option Nat
  range : Option String
deriving Repr, DecidableEq

/-- The parsing block of `_extract_salary_info` applied to a known range
string: `re.findall` the numeric tokens and compute min/max/floor-average
when at least two are present, else keep only the raw string. -/
def parseSalaryNumbers (s : String) : SalaryInfo :=
  match findSalaryTokens s.data with
  | a0 :: a1 :: _ =>
    let minSal := _parse_salary a0
    let maxSal := _parse_salary a1
    ⟨some minSal, some maxSal, some ((minSal + maxSal) / 2), some s⟩
  | _ => ⟨none, none, none, some s⟩

/-- `NLPAnalyzer._extract_salary_info`.  `if not salary_range:` treats the
empty string like `None` (falsy); a missing explicit range falls back to
searching the description text and reassembling `"$X - $Y"`; parsing
requires at least two `findall` tokens, otherwise only the raw `range`
string is kept. -/
def _extract_salary_info (salary_range : Option String) (text : String) :
    SalaryInfo :=
  let sr0 : Option String :=
    match salary_range with
    | some s => if s = "" then none else some s
    | none => none
  let sr : Option String :=
    match sr0 with
    | some s => some s
    | none =>
      match searchSalaryPair text.data with
      | some (g1, g2) =>
        some (String.mk ('$' :: (g1 ++ ' ' :: '-' :: ' ' :: '$' :: g2)))
      | none => none
  match sr with
  | none => ⟨none, none, none, none⟩
  | some s => parseSalaryNumbers s

/-! ## Remote policy, company info, education (`_extract_remote_policy`,
`_extract_company_info`, `_extract_education`)

These receive the already-lowercased text (the caller passes
`text_lower`); their patterns have no IGNORECASE flag and are plain
alternations of literals, each expanded below. -/

/-- `100%\s*remote` anchored at the current position. -/
def hundredRemoteAt (t : List Char) : Bool :=
  match stripPrefixList ['1', '0', '0', '%'] t with
  | some r => hasPrefixList ['r', 'e', 'm', 'o', 't', 'e']
      (r.dropWhile Char.isWhitespace)
  | none => false

def containsHundredRemote : List Char → Bool
  | [] => false
  | c :: cs => hundredRemoteAt (c :: cs) || containsHundredRemote cs

/-- `NLPAnalyzer._extract_remote_policy` on the lowercased text:
`fully remote|100%\s*remote|remote[- ]first` → Fully Remote; else
`hybrid` → Hybrid; else `on[- ]?site|in[- ]office` → On-Site; else
`remote` → Remote Available; else Not Specified. -/
def _extract_remote_policy (text : String) : String :=
  let t := text.data
  if containsList "fully remote".data t || containsHundredRemote t ||
      containsList "remote-first".data t || containsList "remote first".data t then
    "Fully Remote"
  else if containsList "hybrid".data t then "Hybrid"
  else if containsList "onsite".data t || containsList "on-site".data t ||
      containsList "on site".data t || containsList "in-office".data t ||
      containsList "in office".data t then
    "On-Site"
  else if containsList "remote".data t then "Remote Available"
  else "Not Specified"

/-- The dict built by `_extract_company_info` (`stage`/`size` keys,
each possibly absent). -/
structure CompanyStageInfo where
  stage : Option String
  size : Option String
deriving Repr, DecidableEq

/-- First character captured by `re.search(r'series ([a-d])', t)`. -/
def searchSeriesChar : List Char → Option Char
  | [] => none
  | c :: cs =>
    match stripPrefixList "series ".data (c :: cs) with
    | some (x :: _) =>
      if x = 'a' || x = 'b' || x = 'c' || x = 'd' then some x
      else searchSeriesChar cs
    | _ => searchSeriesChar cs

/-- Anchored match of `(\d+)\+?\s*(?:person|people|employee)`, returning
group 1. -/
def matchSizeAt (cs : List Char) : Option (List Char) :=
  let (ds, r1) := takeDigits cs
  if ds.isEmpty then none
  else
    let r2 := match r1 with
      | '+' :: rest => rest
      | _ => r1
    let r3 := r2.dropWhile Char.isWhitespace
    if hasPrefixList "person".data r3 || hasPrefixList "people".data r3 ||
        hasPrefixList "employee".data r3 then
      some ds
    else none

def searchSize : List Char → Option (List Char)
  | [] => none
  | c :: cs =>
    match matchSizeAt (c :: cs) with
    | some g => some g
    | none => searchSize cs

/-- `NLPAnalyzer._extract_company_info` on the lowercased text. -/
def _extract_company_info (text : String) : CompanyStageInfo :=
  let t := text.data
  let stage : Option String :=
    if containsList "startup".data t || containsList "early-stage".data t ||
        containsList "early stage".data t then
      some "Startup"
    else if (searchSeriesChar t).isSome then
      match searchSeriesChar t with
      | some x => some (String.mk ('S' :: 'e' :: 'r' :: 'i' :: 'e' :: 's' :: ' ' :: [x.toUpper]))
      | none => none
    else if containsList "enterprise".data t || containsList "fortune".data t then
      some "Enterprise"
    else none
  let size : Option String :=
    match searchSize t with
    | some ds => some (String.mk (ds ++ "+ employees".data))
    | none => none
  ⟨stage, size⟩

/-! ## Education (`_extract_education`) -/

/-- Anchored match of `word'?s?\s+degree` (used with word = bachelor or
master); returns the matched substring (regex group 0). -/
def matchDegreeWordAt (word : List Char) (cs : List Char) : Option (List Char) :=
  match stripPrefixList word cs with
  | none => none
  | some r1 =>
    let apos : Char := Char.ofNat 39
    let ap : List Char := match r1 with
      | c :: _ => if c = apos then [apos] else []
      | _ => []
    let r2 := r1.drop ap.length
    let es : List Char := match r2 with
      | 's' :: _ => ['s']
      | _ => []
    let r3 := r2.drop es.length
    let ws := r3.takeWhile Char.isWhitespace
    if ws.isEmpty then none
    else if hasPrefixList "degree".data (r3.dropWhile Char.isWhitespace) then
      some (word ++ ap ++ es ++ ws ++ "degree".data)
    else none

def searchDegreeWord (word : List Char) : List Char → Option (List Char)
  | [] => none
  | c :: cs =>
    match matchDegreeWordAt word (c :: cs) with
    | some g => some g
    | none => searchDegreeWord word cs

/-- Anchored match of `ph\.?d\.?`, returning the matched substring. -/
def matchPhdAt (cs : List Char) : Option (List Char) :=
  match cs with
  | 'p' :: 'h' :: rest =>
    let d1 : List Char := match rest with
      | '.' :: _ => ['.']
      | _ => []
    let r1 := rest.drop d1.length
    match r1 with
    | 'd' :: r2 =>
      let d2 : List Char := match r2 with
        | '.' :: _ => ['.']
        | _ => []
      some ('p' :: 'h' :: (d1 ++ 'd' :: d2))
    | _ => none
  | _ => none

def searchPhd : List Char → Option (List Char)
  | [] => none
  | c :: cs =>
    match matchPhdAt (c :: cs) with
    | some g => some g
    | none => searchPhd cs

/-- `NLPAnalyzer._extract_education`: test the fixed keyword patterns in
order against the lowercased text; append each pattern's first matched
substring. -/
def _extract_education (text : String) : List String :=
  let t := lowerL text.data
  let hits : List (Option (List Char)) :=
    [ searchDegreeWord "bachelor".data t,
      searchDegreeWord "master".data t,
      if containsList "mba".data t then some "mba".data else none,
      searchPhd t,
      if containsList "computer science degree".data t then
        some "computer science degree".data else none,
      if containsList "technical degree".data t then
        some "technical degree".data else none,
      if containsList "engineering degree".data t then
        some "engineering degree".data else none ]
  (hits.filterMap id).map String.mk

/-! ## Section extraction (`_extract_sections`, `_extract_nice_to_have`) -/

/-- The character class `[-•*\d.]` of the section scanner. -/
def isMarkerChar (c : Char) : Bool :=
  c = '-' || c = '•' || c = '*' || c = '.' || c.isDigit

/-- `re.match(r'^[-•*\d.]', line)`: the line starts with a marker character. -/
def bulletStartB (l : List Char) : Bool :=
  match l with
  | [] => false
  | c :: _ => isMarkerChar c

/-- `re.match(r'^[-•*]\s+', line)`: bullet marker followed by whitespace. -/
def bulletLineB (l : List Char) : Bool :=
  match l with
  | c :: d :: _ => (c = '-' || c = '•' || c = '*') && d.isWhitespace
  | _ => false

/-- `re.match(r'^\d+\.\s+', line)`: digits, a dot, then whitespace. -/
def numberedLineB (l : List Char) : Bool :=
  let ds := (takeDigits l).1
  let r := (takeDigits l).2
  if ds.isEmpty then false
  else
    match r with
    | '.' :: d :: _ => d.isWhitespace
    | _ => false

/-- `re.sub(r'^[-•*\d.]+\s+', '', line)`: when the maximal marker-character
prefix is non-empty and followed by whitespace, remove the prefix and the
whitespace run; otherwise leave the line unchanged. -/
def stripMarkerL (l : List Char) : List Char :=
  let ms := l.takeWhile isMarkerChar
  let r := l.dropWhile isMarkerChar
  match ms, r with
  | [], _ => l
  | _ :: _, c :: _ =>
    if c.isWhitespace then r.dropWhile Char.isWhitespace else l
  | _ :: _, [] => l

/-- The per-line loop of `NLPAnalyzer._extract_sections`.  Each line is
stripped; a line containing a section keyword opens the window
(`continue`); a non-empty non-marker line whose successor (if any) is also
a non-marker line closes it; a line is captured when
`(in_section and ^[-•*]\s+) or ^\d+\.\s+` holds — by Python operator
precedence a numbered line is captured regardless of the window state —
and it passes the >20-character filter after marker stripping, truncated
to 200 characters. -/
def extractSectionsLoop (keywords : List (List Char)) :
    Bool → List (List Char) → List (List Char)
  | _, [] => []
  | inSection, raw :: rest =>
    let line := pyStripL raw
    if keywords.any (fun kw => containsList kw (lowerL line)) then
      extractSectionsLoop keywords true rest
    else
      let inSection2 :=
        if inSection && !line.isEmpty && !bulletStartB line then
          match rest with
          | next :: _ => if !bulletStartB (pyStripL next) then false else inSection
          | [] => inSection
        else inSection
      let captured :=
        if (inSection2 && bulletLineB line) || numberedLineB line then
          let clean := stripMarkerL line
          if 20 < clean.length then [clean.take 200] else []
        else []
      captured ++ extractSectionsLoop keywords inSection2 rest

def _extract_sections (text : String) (keywords : List String) : List String :=
  ((extractSectionsLoop (keywords.map String.data) false
    (splitLines text.data)).take 20).map String.mk

/-- The per-line loop of `NLPAnalyzer._extract_nice_to_have`: the window
opens on a keyword line and never closes; only `^[-•*]\s+` bullet lines
(tested on the raw, unstripped line) are captured, with the >10-character
filter after stripping, truncated to 200 characters. -/
def extractNiceLoop (keywords : List (List Char)) :
    Bool → List (List Char) → List (List Char)
  | _, [] => []
  | inSec, line :: rest =>
    if keywords.any (fun kw => containsList kw (lowerL line)) then
      extractNiceLoop keywords true rest
    else
      let captured :=
        if inSec && bulletLineB line then
          let clean := stripMarkerL (pyStripL line)
          if 10 < clean.length then [clean.take 200] else []
        else []
      captured ++ extractNiceLoop keywords inSec rest

def _extract_nice_to_have (text : String) : List String :=
  ((extractNiceLoop
    ["nice to have".data, "preferred".data, "bonus".data, "plus".data,
      "ideal candidate".data]
    false (splitLines text.data)).take 10).map String.mk

/-! ## Per-document insight (`analyze_job_description`) -/

/-- The insight dict built by `NLPAnalyzer.analyze_job_description`. -/
structure Insight where
  title : String
  company : String
  skills : List String
  skills_by_category : List (String × List String)
  responsibilities : List String
  qualifications : List String
  experience_level : String
  experience_years : Option Nat
  salary_range : SalaryInfo
  location : String
  remote_policy : String
  company_info : CompanyStageInfo
  required_education : List String
  nice_to_have : List String
deriving Repr, DecidableEq

/-- `NLPAnalyzer.analyze_job_description` along the deterministic
(rule-based) path.  `job_desc.location or 'Not specified'` treats the
empty string like `None`. -/
def analyze_job_description (jd : JobDescription) : Insight :=
  let text := jd.description
  let text_lower := String.mk (lowerL text.data)
  let skills := _extract_skills_rules text_lower
  { title := jd.title
    company := jd.company
    skills := skills
    skills_by_category := _categorize_skills skills
    responsibilities :=
      _extract_sections text ["responsibilities", "duties", "what you"]
    qualifications :=
      _extract_sections text ["qualifications", "requirements", "you have"]
    experience_level := _extract_experience_level text
    experience_years := _extract_years_experience text
    salary_range := _extract_salary_info jd.salary_range text
    location := match jd.location with
      | some l => if l = "" then "Not specified" else l
      | none => "Not specified"
    remote_policy := _extract_remote_policy text_lower
    company_info := _extract_company_info text_lower
    required_education := _extract_education text
    nice_to_have := _extract_nice_to_have text }

/-! ## Cross-document aggregation (`analyze_multiple_descriptions`)

`collections.Counter` preserves first-encounter key order (Python dicts
are insertion-ordered) and `most_common` uses a stable sort by count
descending, so equal counts stay in first-encounter order. -/

/-- `Counter(l)` as an association list: keys in first-encounter order,
each with its number of occurrences. -/
def counterOf (l : List String) : List (String × Nat) :=
  (dedupFirst l).map (fun x => (x, l.count x))

/-- Insertion step of a stable descending-by-count sort: walk past every
entry whose count is at least `p`'s (so equal counts keep their relative
order), insert before the first strictly smaller one. -/
def insertByCountDesc (p : String × Nat) :
    List (String × Nat) → List (String × Nat)
  | [] => [p]
  | q :: qs => if q.2 < p.2 then p :: q :: qs else q :: insertByCountDesc p qs

/-- Stable sort by count descending (left-to-right insertion). -/
def sortByCountDesc (l : List (String × Nat)) : List (String × Nat) :=
  l.foldl (fun acc p => insertByCountDesc p acc) []

/-- `dict(Counter(l).most_common(n))`: count occurrences, sort by count
descending (ties in first-encounter order), keep the first `n`. -/
def mostCommon (n : Nat) (l : List String) : List (String × Nat) :=
  (sortByCountDesc (counterOf l)).take n

/-- The dict returned by `_aggregate_salary_data` (when non-empty). -/
structure SalaryAgg where
  market_min : Nat
  market_max : Nat
  average_min : Nat
  average_max : Option Nat
  sample_size : Nat
deriving Repr, DecidableEq

/-- Python `min` over a list known non-empty at the call site. -/
def listMin : List Nat → Nat
  | [] => 0
  | x :: xs => xs.foldl Nat.min x

def listMax : List Nat → Nat
  | [] => 0
  | x :: xs => xs.foldl Nat.max x

def listSum (l : List Nat) : Nat := l.foldl (· + ·) 0

/-- `NLPAnalyzer._aggregate_salary_data`.  The Python `return {}` branches
(empty input list, no `min` keys) are unreachable from the caller, which
only passes a non-empty list of fully parsed salary dicts; they are
modelled as `none`. -/
def _aggregate_salary_data (salary_ranges : List SalaryInfo) : Option SalaryAgg :=
  if salary_ranges.isEmpty then none
  else
    let min_salaries := salary_ranges.filterMap SalaryInfo.min
    let max_salaries := salary_ranges.filterMap SalaryInfo.max
    if min_salaries.isEmpty then none
    else
      some { market_min := listMin min_salaries
             market_max := listMax max_salaries
             average_min := listSum min_salaries / min_salaries.length
             average_max :=
               if max_salaries.isEmpty then none
               else some (listSum max_salaries / max_salaries.length)
             sample_size := salary_ranges.length }

/-- The dict returned by `_find_common_patterns`.  The two Python float
ratios are represented exactly as (numerator, denominator) pairs:
`average_years_required` = (sum of years, number of documents with a
truthy years value), `education_requirement_frequency` = (documents with a
non-empty education list, total documents). -/
structure CommonPatterns where
  top_skills : List String
  average_years_required : Option (Nat × Nat)
  education_requirement_frequency : Nat × Nat
deriving Repr, DecidableEq

/-- `NLPAnalyzer._find_common_patterns`.  The comprehension
`[i.get('experience_years') for i in insights if i.get('experience_years')]`
drops both `None` and the falsy `0`. -/
def _find_common_patterns (insights : List Insight) : CommonPatterns :=
  let all_skills := (insights.map Insight.skills).flatten
  let years := insights.filterMap (fun i =>
    match i.experience_years with
    | some y => if y = 0 then none else some y
    | none => none)
  { top_skills := (mostCommon 10 all_skills).map Prod.fst
    average_years_required :=
      if years.isEmpty then none else some (listSum years, years.length)
    education_requirement_frequency :=
      ((insights.filter (fun i => !i.required_education.isEmpty)).length,
        insights.length) }

/-- The dict returned by `_generate_market_comparison`. -/
structure MarketComparison where
  total_roles_analyzed : Nat
  experience_levels : List (String × Nat)
  remote_policies : List (String × Nat)
  common_requirements : CommonPatterns
deriving Repr, DecidableEq

/-- `NLPAnalyzer._generate_market_comparison`. -/
def _generate_market_comparison (insights : List Insight) : MarketComparison :=
  { total_roles_analyzed := insights.length
    experience_levels := counterOf (insights.map Insight.experience_level)
    remote_policies := counterOf (insights.map Insight.remote_policy)
    common_requirements := _find_common_patterns insights }

/-- The `AnalysisResult` pydantic model (src/core/models.py). -/
structure AnalysisResult where
  total_analyzed : Nat
  common_skills : List (String × Nat)
  common_responsibilities : List (String × Nat)
  common_qualifications : List (String × Nat)
  insights : List Insight
  salary_insights : Option SalaryAgg
  market_comparison : Option MarketComparison
deriving Repr, DecidableEq

/-- The exceptions `analyze_multiple_descriptions` can raise
(src/core/exceptions.py). -/
inductive AnalyzerError where
  | insufficientData (msg : String)
  | analysisError (msg : String)
deriving Repr, DecidableEq

def insufficientDataMsg (minRequired got : Nat) : String :=
  "At least " ++ toString minRequired ++
    " job descriptions required for quality analysis. Got " ++
    toString got ++ "."

/-- The Python filter
`if insight.get('salary_range', {}).get('min'):` — truthiness of the `min`
value: present and non-zero. -/
def salaryMinTruthy (s : SalaryInfo) : Bool :=
  match s.min with
  | some m => decide (m ≠ 0)
  | none => false

/-- `NLPAnalyzer.analyze_multiple_descriptions`, instrumented with the
number of per-document `analyze_job_description` invocations (the
side-effect counter of the specification's testable property): the
batch-size gate raises `InsufficientDataError` before the per-document
comprehension runs, so in that case the count is 0; otherwise every
document is analyzed exactly once, in input order. -/
def analyzeBatchInstrumented (minRequired : Nat) (descs : List JobDescription) :
    Except AnalyzerError AnalysisResult × Nat :=
  if descs.length < minRequired then
    (.error (.insufficientData (insufficientDataMsg minRequired descs.length)), 0)
  else
    let all_insights := descs.map analyze_job_description
    let all_skills := (all_insights.map Insight.skills).flatten
    let all_responsibilities := (all_insights.map Insight.responsibilities).flatten
    let all_qualifications := (all_insights.map Insight.qualifications).flatten
    let salary_ranges := all_insights.filterMap (fun i =>
      if salaryMinTruthy i.salary_range then some i.salary_range else none)
    let skill_freq := mostCommon 50 all_skills
    let responsibility_freq := mostCommon 30 all_responsibilities
    let qualification_freq := mostCommon 30 all_qualifications
    let salary_insights :=
      if salary_ranges.isEmpty then none
      else _aggregate_salary_data salary_ranges
    let market_comparison := _generate_market_comparison all_insights
    (.ok { total_analyzed := descs.length
           common_skills := skill_freq
           common_responsibilities := responsibility_freq
           common_qualifications := qualification_freq
           insights := all_insights
           salary_insights := salary_insights
           market_comparison := some market_comparison },
      descs.length)

/-- `NLPAnalyzer.analyze_multiple_descriptions` (the un-instrumented
result). -/
def analyze_multiple_descriptions (minRequired : Nat)
    (descs : List JobDescription) : Except AnalyzerError AnalysisResult :=
  (analyzeBatchInstrumented minRequired descs).1

/-! ## Specification-side definitions and demonstration inputs -/

/-- The experience-level procedure exactly as the specification states it:
after the explicit term checks, any extracted years value is classified by
the thresholds (`≥10`, `≥6`, `≥3`, else Entry-Level), and "Mid-Level" is
returned only when no years value was found. -/
def experienceLevelClaimed (text : String) : String :=
  if hasLeadTerm text then "Lead/Principal"
  else if hasSeniorTerm text then "Senior"
  else if hasEntryTerm text then "Entry-Level"
  else
    match _extract_years_experience text with
    | some years =>
      if 10 ≤ years then "Lead/Principal"
      else if 6 ≤ years then "Senior"
      else if 3 ≤ years then "Mid-Level"
      else "Entry-Level"
    | none => "Mid-Level"

/-- The amended experience-level procedure: identical to the claimed one
except that an extracted years value of 0 (falsy in Python) is treated
exactly like "no years found" and yields "Mid-Level". -/
def experienceLevelAmended (text : String) : String :=
  if hasLeadTerm text then "Lead/Principal"
  else if hasSeniorTerm text then "Senior"
  else if hasEntryTerm text then "Entry-Level"
  else
    match _extract_years_experience text with
    | some years =>
      if 0 < years then
        if 10 ≤ years then "Lead/Principal"
        else if 6 ≤ years then "Senior"
        else if 3 ≤ years then "Mid-Level"
        else "Entry-Level"
      else "Mid-Level"
    | none => "Mid-Level"

/-- Demonstration inputs for the section scanner (used by the C6
theorems). -/
def sectionKeywords : List String := ["responsibilities", "duties", "what you"]

def sectionDemoText : String :=
  "intro words here\n- early bullet that is definitely long enough\nResponsibilities:\n- lead product strategy and roadmap for the team\n- work closely with engineering and design teams\nplain line one\nplain line two\n- late bullet that is definitely long enough too"

def numberedDemoText : String := "1. a numbered line outside any window here"

def niceDemoText : String :=
  "Nice to have:\nfiller line\nanother filler\n- strong experience with data pipelines\n1. numbered nice item that is long enough"

/-- Concrete three-document batch used by the aggregation witnesses. -/
def analyzerDemoBatch : List JobDescription :=
  [ ⟨"Data PM", "AlphaCo", none, none, "sql"⟩,
    ⟨"Agile PM", "BetaCo", none, none, "agile"⟩,
    ⟨"Platform PM", "GammaCo", none, none, "sql agile"⟩ ]

/-! ## Supporting lemmas -/

theorem takeDigitsUpTo_length (n : Nat) (cs : List Char) :
    (takeDigitsUpTo n cs).1.length + (takeDigitsUpTo n cs).2.length = cs.length := by
  induction n generalizing cs with
  | zero => simp [takeDigitsUpTo]
  | succ n ih =>
    cases cs with
    | nil => simp [takeDigitsUpTo]
    | cons c cs' =>
      simp only [takeDigitsUpTo]
      split
      · have := ih cs'
        simp only [List.length_cons]
        omega
      · simp

theorem takeCommaGroups_length (cs : List Char) :
    (takeCommaGroups cs).1.length + (takeCommaGroups cs).2.length = cs.length := by
  induction cs using takeCommaGroups.induct with
  | case1 a b c rest h ih =>
    simp only [takeCommaGroups]
    split
    · simp only [List.length_cons]
      omega
    · contradiction
  | case2 a b c rest h =>
    simp only [takeCommaGroups]
    split
    · exact absurd (by simp_all) h
    · simp
  | case3 cs h => simp [takeCommaGroups]

theorem matchNumTokenAt_rest_lt (cs t r : List Char)
    (h : matchNumTokenAt cs = some (t, r)) : r.length < cs.length := by
  have hd := takeDigitsUpTo_length 3 cs
  have hc := takeCommaGroups_length (takeDigitsUpTo 3 cs).2
  unfold matchNumTokenAt at h
  simp only at h
  split at h
  · exact absurd h (by simp)
  · rename_i hne
    have hds : 0 < (takeDigitsUpTo 3 cs).1.length := by
      cases hx : (takeDigitsUpTo 3 cs).1 with
      | nil => exact absurd (by simp [hx]) hne
      | cons y ys => simp [hx]
    split at h
    · rename_i heq
      injection h with h1
      injection h1 with _ h2
      subst h2
      rw [heq] at hc
      simp at hc
      omega
    · rename_i heq
      injection h with h1
      injection h1 with _ h2
      subst h2
      rw [heq] at hc
      simp at hc
      omega
    · injection h with h1
      injection h1 with _ h2
      subst h2
      omega

theorem matchSalaryTokenAt_rest_lt (cs t r : List Char)
    (h : matchSalaryTokenAt cs = some (t, r)) : r.length < cs.length := by
  unfold matchSalaryTokenAt at h
  split at h
  · rename_i rest
    have := matchNumTokenAt_rest_lt rest t r h
    simp
    omega
  · exact matchNumTokenAt_rest_lt cs t r h

theorem findSalaryTokensAux_fuel (fuel : Nat) :
    ∀ (fuel' : Nat) (cs : List Char), cs.length ≤ fuel → cs.length ≤ fuel' →
      findSalaryTokensAux fuel cs = findSalaryTokensAux fuel' cs := by
  induction fuel with
  | zero =>
    intro fuel' cs h h'
    have : cs = [] := List.length_eq_zero.mp (Nat.le_zero.mp h)
    subst this
    cases fuel' <;> rfl
  | succ fuel ih =>
    intro fuel' cs h h'
    cases cs with
    | nil => cases fuel' <;> rfl
    | cons c cs' =>
      cases fuel' with
      | zero => simp at h'
      | succ fuel'' =>
        simp only [findSalaryTokensAux]
        cases hm : matchSalaryTokenAt (c :: cs') with
        | some p =>
          obtain ⟨tok, rest⟩ := p
          have hlt := matchSalaryTokenAt_rest_lt (c :: cs') tok rest hm
          simp only [List.length_cons] at h h' hlt
          show tok :: findSalaryTokensAux fuel rest =
            tok :: findSalaryTokensAux fuel'' rest
          rw [ih fuel'' rest (by omega) (by omega)]
        | none =>
          simp only [List.length_cons] at h h'
          show findSalaryTokensAux fuel cs' = findSalaryTokensAux fuel'' cs'
          rw [ih fuel'' cs' (by omega) (by omega)]

theorem countWordsAux_le_length (b : Bool) (l : List Char) :
    countWordsAux b l ≤ l.length := by
  induction l generalizing b with
  | nil => simp [countWordsAux]
  | cons c cs ih =>
    simp only [countWordsAux, List.length_cons]
    split
    · exact Nat.le_succ_of_le (ih false)
    · have := ih true
      split <;> omega

theorem countWords_le_length (s : String) : countWords s ≤ s.length :=
  countWordsAux_le_length false s.data

/-! ## Claims -/

/-- C1: for every list of postings whose length is below the configured
minimum batch size (default 3), `analyze_multiple_descriptions` raises
`InsufficientDataError` before any per-document extraction is invoked:
the instrumented model returns the error together with a per-document
invocation count of 0, and the plain model returns the same error. -/
theorem analyze_batch_insufficient (minRequired : Nat)
    (descs : List JobDescription) (h : descs.length < minRequired) :
    analyzeBatchInstrumented minRequired descs =
      (.error (.insufficientData
        (insufficientDataMsg minRequired descs.length)), 0) ∧
    analyze_multiple_descriptions minRequired descs =
      .error (.insufficientData
        (insufficientDataMsg minRequired descs.length)) := by
  have hmain : analyzeBatchInstrumented minRequired descs =
      (.error (.insufficientData
        (insufficientDataMsg minRequired descs.length)), 0) := by
    unfold analyzeBatchInstrumented
    rw [if_pos h]
  refine ⟨hmain, ?_⟩
  unfold analyze_multiple_descriptions
  rw [hmain]

/-- C1 witness: a two-element batch (below the default minimum 3) is
rejected with no per-document work. -/
theorem analyze_batch_insufficient_witness :
    analyzeBatchInstrumented 3
        [⟨"PM", "Corp", none, none, "text one"⟩,
         ⟨"PM2", "Corp2", none, none, "text two"⟩] =
      (.error (.insufficientData
        "At least 3 job descriptions required for quality analysis. Got 2."), 0) := by
  have h := (analyze_batch_insufficient 3
    [⟨"PM", "Corp", none, none, "text one"⟩,
     ⟨"PM2", "Corp2", none, none, "text two"⟩] (by decide)).1
  rw [h]
  rfl

/-- C2: construction of a `JobDescription` fails with a validation error
whenever the description has fewer than 50 words, and — when the other
required fields satisfy their own constraints — succeeds exactly when the
description has at least 50 words.  (A 50-word description always has at
least 50 characters, so the `min_length=10` field constraint cannot fire
in the success direction.) -/
theorem construction_wordcount (title company : String)
    (location salary_range : Option String) (description : String) :
    (countWords description < 50 →
      (JobDescription.construct title company location salary_range
        description).isOk = false) ∧
    (1 ≤ title.length → title.length ≤ 200 →
     1 ≤ company.length → company.length ≤ 200 →
      ((JobDescription.construct title company location salary_range
          description).isOk = true ↔ 50 ≤ countWords description)) := by
  constructor
  · intro hlt
    unfold JobDescription.construct
    split_ifs <;> first | rfl | omega
  · intro h1 h2 h3 h4
    constructor
    · intro hok
      by_contra hlt
      push_neg at hlt
      unfold JobDescription.construct at hok
      split_ifs at hok <;>
        first | simp [Except.isOk, Except.toBool] at hok | omega
    · intro hge
      have hchain : countWords description ≤ description.length :=
        countWords_le_length description
      unfold JobDescription.construct
      rw [if_neg (by omega), if_neg (by omega), if_neg (by omega),
          if_neg (by omega)]
      rfl

/-- C2 witness: a concrete 50-word description is accepted. -/
theorem construction_wordcount_witness :
    (JobDescription.construct "PM" "Corp" none none
      "w w w w w w w w w w w w w w w w w w w w w w w w w w w w w w w w w w w w w w w w w w w w w w w w w w").isOk
      = true :=
  ((construction_wordcount "PM" "Corp" none none
      "w w w w w w w w w w w w w w w w w w w w w w w w w w w w w w w w w w w w w w w w w w w w w w w w w w").2
    (by decide) (by decide) (by decide) (by decide)).mpr (by decide)

/-! ### C3: experience-level priority -/

/-- C3 counterexample: on the text "0 years" the years pattern captures 0,
so the claimed procedure returns "Entry-Level" (0 < 3), but the code's
`if years:` treats 0 as falsy and returns "Mid-Level". -/
theorem experience_level_zero_years_counterexample :
    _extract_experience_level "0 years" = "Mid-Level" ∧
    experienceLevelClaimed "0 years" = "Entry-Level" := by
  constructor
  · rfl
  · rfl

/-- C3 (amended): the extracted experience level follows the strict
priority order lead/principal/staff → senior/sr → entry/junior/associate
→ years thresholds (≥10 Lead/Principal, ≥6 Senior, ≥3 Mid-Level, else
Entry-Level) — where a years value of 0 is treated like "no years found"
and yields "Mid-Level" — and "Mid-Level" when no years are found; in
particular "Senior Product Manager, 10+ years experience" yields
"Senior". -/
theorem experience_level_amended (t : String) :
    _extract_experience_level t = experienceLevelAmended t ∧
    _extract_experience_level "Senior Product Manager, 10+ years experience"
      = "Senior" := by
  constructor
  · unfold _extract_experience_level experienceLevelAmended
    split_ifs <;> try rfl
    cases h : _extract_years_experience t with
    | none => rfl
    | some y =>
      by_cases h0 : y = 0
      · subst h0
        simp
      · have hpos : 0 < y := Nat.pos_of_ne_zero h0
        simp [h0, hpos]
  · rfl

/-- C4: salary parsing strips `$`/commas, reads a trailing `k`/`K` as
×1000, and computes min/max/floor-average only when `findall` produces at
least two numeric tokens, otherwise keeping only the raw string under the
`range` key; with the three concrete examples of the specification. -/
theorem salary_parsing (s t : String) (hne : s ≠ "") :
    (_extract_salary_info (some "$120k - $150k") "" =
      ⟨some 120000, some 150000, some 135000, some "$120k - $150k"⟩) ∧
    (_extract_salary_info (some "$95,000-$110,000") "" =
      ⟨some 95000, some 110000, some 102500, some "$95,000-$110,000"⟩) ∧
    (_extract_salary_info (some "competitive") "" =
      ⟨none, none, none, some "competitive"⟩) ∧
    ((findSalaryTokens s.data).length < 2 →
      _extract_salary_info (some s) t = ⟨none, none, none, some s⟩) ∧
    (∀ a0 a1 rest, findSalaryTokens s.data = a0 :: a1 :: rest →
      _extract_salary_info (some s) t =
        ⟨some (_parse_salary a0), some (_parse_salary a1),
         some ((_parse_salary a0 + _parse_salary a1) / 2), some s⟩) := by
  refine ⟨by rfl, by rfl, by rfl, ?_, ?_⟩
  · intro hlt
    unfold _extract_salary_info parseSalaryNumbers
    simp only [hne, if_false]
    cases hft : findSalaryTokens s.data with
    | nil => simp [hft]
    | cons a as =>
      cases as with
      | nil => simp [hft]
      | cons b bs =>
        rw [hft] at hlt
        exact absurd hlt (by simp)
  · intro a0 a1 rest hft
    unfold _extract_salary_info parseSalaryNumbers
    simp only [hne, if_false]
    simp [hft]

/-- C4 witness: the no-numeric-tokens branch at the concrete input
"competitive". -/
theorem salary_parsing_witness :
    _extract_salary_info (some "competitive") "" =
      ⟨none, none, none, some "competitive"⟩ :=
  (salary_parsing "competitive" "" (by decide)).2.2.2.1 (by decide)

/-! ### C9: taxonomy phrase uniqueness -/

/-- C9 counterexample: the phrase "sql" appears in the skill lists of two
different categories of the default taxonomy — "technical" and
"analytics" — so it does not belong to exactly one category. -/
theorem taxonomy_sql_in_two_categories :
    (skill_patterns.filter (fun p => p.2.contains "sql")).map Prod.fst
      = ["technical", "analytics"] := by decide

set_option maxRecDepth 10000 in
/-- C9 (amended): every taxonomy phrase other than "sql" belongs to
exactly one category; "sql" belongs to exactly the two categories
"technical" and "analytics"; and `_categorize_skills` nevertheless places
a detected "sql" only under the first containing category ("technical"),
never under two. -/
theorem taxonomy_unique_except_sql :
    (∀ s ∈ allTaxonomySkills, s ≠ "sql" →
      (skill_patterns.filter (fun p => p.2.contains s)).length = 1) ∧
    ((skill_patterns.filter (fun p => p.2.contains "sql")).map Prod.fst
      = ["technical", "analytics"]) ∧
    (_categorize_skills ["sql"] = [("technical", ["sql"])]) := by
  refine ⟨by decide, by decide, by decide⟩

/-- C9 witness: uniqueness instantiated at the concrete phrase "python". -/
theorem taxonomy_unique_except_sql_witness :
    (skill_patterns.filter (fun p => p.2.contains "python")).length = 1 :=
  taxonomy_unique_except_sql.1 "python" (by decide) (by decide)

/-! ### C5: boundary-safe skill detection -/

theorem lastOpt_append (prev : Option Char) (l1 l2 : List Char) :
    lastOpt prev (l1 ++ l2) = lastOpt (lastOpt prev l1) l2 := by
  induction l1 generalizing prev with
  | nil => rfl
  | cons c cs ih => exact ih (some c)

/-- A word-boundary match found while scanning `t2` with the correct
preceding character is still found when scanning `t1 ++ t2`. -/
theorem containsWordAux_extend (w t2 t1 : List Char) (prev : Option Char)
    (h : containsWordAux w (lastOpt prev t1) t2 = true) :
    containsWordAux w prev (t1 ++ t2) = true := by
  induction t1 generalizing prev with
  | nil => exact h
  | cons c cs ih =>
    have h2 := ih (some c) h
    simp only [List.cons_append, containsWordAux, Bool.or_eq_true]
    exact Or.inr h2

theorem mem_dedupFirstAux (a : String) :
    ∀ (l seen : List String),
      a ∈ dedupFirstAux seen l ↔ (a ∈ l ∧ a ∉ seen) := by
  intro l
  induction l with
  | nil => intro seen; simp [dedupFirstAux]
  | cons x xs ih =>
    intro seen
    simp only [dedupFirstAux]
    split
    · rename_i hx
      rw [ih seen]
      simp only [List.mem_cons]
      constructor
      · exact fun h => ⟨Or.inr h.1, h.2⟩
      · rintro ⟨h1 | h1, h2⟩
        · subst h1; exact absurd hx h2
        · exact ⟨h1, h2⟩
    · rename_i hx
      simp only [List.mem_cons, ih (x :: seen)]
      constructor
      · rintro (h | ⟨h1, h2⟩)
        · subst h; exact ⟨Or.inl rfl, hx⟩
        · exact ⟨Or.inr h1, fun hc => h2 (Or.inr hc)⟩
      · rintro ⟨h1 | h1, h2⟩
        · exact Or.inl h1
        · by_cases hax : a = x
          · exact Or.inl hax
          · exact Or.inr ⟨h1, fun hc => hc.elim hax h2⟩

theorem mem_extract_skills_rules (s t : String) :
    s ∈ _extract_skills_rules t ↔
      (s ∈ allTaxonomySkills ∧ containsWord s t = true) := by
  unfold _extract_skills_rules dedupFirst
  rw [mem_dedupFirstAux]
  simp [List.mem_filter]

/-- C5: deterministic skill detection matches taxonomy phrases
case-insensitively on whole-phrase boundaries: "sql" is detected in every
text containing "Strong SQL skills" (arbitrary context on both sides), in
the text "Strong SQL skills" itself, but not in "Sqlite" alone, and "api"
is not detected in "rapid". -/
theorem skill_boundary (a b : List Char) :
    ("sql" ∈ _extract_skills_rules
      (String.mk (a ++ ("Strong SQL skills".data ++ b)))) ∧
    ("sql" ∈ _extract_skills_rules "Strong SQL skills") ∧
    ("sql" ∉ _extract_skills_rules "Sqlite") ∧
    ("api" ∉ _extract_skills_rules "rapid") := by
  refine ⟨?_, by decide, by decide, by decide⟩
  rw [mem_extract_skills_rules]
  refine ⟨by decide, ?_⟩
  show containsWordAux "sql".data none
    (a ++ ("Strong SQL skills".data ++ b)) = true
  apply containsWordAux_extend
  show containsWordAux "sql".data (lastOpt none a)
    ("Strong ".data ++ ("SQL skills".data ++ b)) = true
  apply containsWordAux_extend
  show containsWordAux "sql".data (some ' ')
    ("SQL skills".data ++ b) = true
  rfl

/-- C5 witness: the contextual detection instantiated with concrete
context on both sides of "Strong SQL skills". -/
theorem skill_boundary_witness :
    "sql" ∈ _extract_skills_rules
      (String.mk ("We want ".data ++
        ("Strong SQL skills".data ++ " and more".data))) :=
  (skill_boundary "We want ".data " and more".data).1

/-! ### C6: section-scoped bullet extraction -/

/-- Membership in the `captured` piece of a scan step: an element of
`if C then (if D then [x] else []) else []` forces `D` and equals `x`. -/
theorem mem_capture {α : Type} {l x : List α} {C D : Prop}
    [Decidable C] [Decidable D]
    (h : l ∈ (if C then (if D then [x] else ([] : List (List α))) else [])) :
    D ∧ l = x := by
  split at h
  · split at h
    · exact ⟨by assumption, List.mem_singleton.mp h⟩
    · simp at h
  · simp at h

theorem extractSectionsLoop_item (kws : List (List Char)) :
    ∀ (lines : List (List Char)) (b : Bool) (l : List Char),
      l ∈ extractSectionsLoop kws b lines → 20 < l.length ∧ l.length ≤ 200 := by
  intro lines
  induction lines with
  | nil => intro b l h; simp [extractSectionsLoop] at h
  | cons raw rest ih =>
    intro b l h
    simp only [extractSectionsLoop] at h
    split at h
    · exact ih true l h
    · rw [List.mem_append] at h
      rcases h with h | h
      · obtain ⟨hD, rfl⟩ := mem_capture h
        rw [List.length_take]
        omega
      · exact ih _ l h

theorem extractNiceLoop_item (kws : List (List Char)) :
    ∀ (lines : List (List Char)) (b : Bool) (l : List Char),
      l ∈ extractNiceLoop kws b lines → 10 < l.length ∧ l.length ≤ 200 := by
  intro lines
  induction lines with
  | nil => intro b l h; simp [extractNiceLoop] at h
  | cons raw rest ih =>
    intro b l h
    simp only [extractNiceLoop] at h
    split at h
    · exact ih true l h
    · rw [List.mem_append] at h
      rcases h with h | h
      · obtain ⟨hD, rfl⟩ := mem_capture h
        rw [List.length_take]
        omega
      · exact ih _ l h

/-- C6 counterexample: the claim says bulleted or numbered lines are
captured ONLY while a capture window opened by a heading-keyword line is
active.  But on a text consisting of a single numbered line — containing
none of the section keywords, so no window ever opens — the code still
captures the line: the Python condition
`in_section and re.match(r'^[-•*]\s+', line) or re.match(r'^\d+\.\s+', line)`
parenthesises as `(in_section and bullet) or numbered`, so numbered lines
bypass the window entirely. -/
theorem sections_numbered_outside_window_counterexample :
    _extract_sections numberedDemoText sectionKeywords
      = ["a numbered line outside any window here"] ∧
    containsList "responsibilities".data (lowerL numberedDemoText.data) = false ∧
    containsList "duties".data (lowerL numberedDemoText.data) = false ∧
    containsList "what you".data (lowerL numberedDemoText.data) = false := by
  refine ⟨by decide, by decide, by decide, by decide⟩

/-- C6 (amended): section extraction captures bulleted (`-`, `•`, `*`)
lines only while a capture window opened by a heading-keyword line is
active, but numbered (`N.`) lines are captured regardless of the window
(operator precedence); the window closes when a non-empty non-marker line
is followed by another non-marker line; captured items have their marker
stripped, are truncated to 200 characters, must exceed the per-section
minimum length (20 for responsibilities/qualifications, 10 for
nice-to-have), and each list is capped (20, resp. 10).  The nice-to-have
scanner opens its window on a keyword line but never closes it, and
captures only bulleted lines, never numbered ones.  Conjuncts: the two
caps, the two length bounds, and three concrete runs exercising window
opening, marker stripping, closing after two consecutive non-bullet
lines, the numbered-line bypass, and the nice-to-have behaviour. -/
theorem sections_amended :
    (∀ (text : String) (kws : List String),
      (_extract_sections text kws).length ≤ 20) ∧
    (∀ text : String, (_extract_nice_to_have text).length ≤ 10) ∧
    (∀ (text : String) (kws : List String) (s : String),
      s ∈ _extract_sections text kws → 20 < s.length ∧ s.length ≤ 200) ∧
    (∀ (text s : String),
      s ∈ _extract_nice_to_have text → 10 < s.length ∧ s.length ≤ 200) ∧
    (_extract_sections sectionDemoText sectionKeywords =
      ["lead product strategy and roadmap for the team",
       "work closely with engineering and design teams"]) ∧
    (_extract_sections numberedDemoText sectionKeywords =
      ["a numbered line outside any window here"]) ∧
    (_extract_nice_to_have niceDemoText =
      ["strong experience with data pipelines"]) := by
  refine ⟨?_, ?_, ?_, ?_, by decide, by decide, by decide⟩
  · intro text kws
    unfold _extract_sections
    rw [List.length_map, List.length_take]
    omega
  · intro text
    unfold _extract_nice_to_have
    rw [List.length_map, List.length_take]
    omega
  · intro text kws s hs
    unfold _extract_sections at hs
    rw [List.mem_map] at hs
    obtain ⟨l, hl, rfl⟩ := hs
    have hl2 : l ∈ extractSectionsLoop (kws.map String.data) false
        (splitLines text.data) :=
      (List.take_sublist _ _).subset hl
    exact extractSectionsLoop_item _ _ _ _ hl2
  · intro text s hs
    unfold _extract_nice_to_have at hs
    rw [List.mem_map] at hs
    obtain ⟨l, hl, rfl⟩ := hs
    have hl2 : l ∈ extractNiceLoop
        ["nice to have".data, "preferred".data, "bonus".data, "plus".data,
          "ideal candidate".data] false (splitLines text.data) :=
      (List.take_sublist _ _).subset hl
    exact extractNiceLoop_item _ _ _ _ hl2

/-- C6 witness: the length bounds instantiated on a captured item of the
concrete demonstration text. -/
theorem sections_amended_witness :
    20 < ("lead product strategy and roadmap for the team" : String).length ∧
    ("lead product strategy and roadmap for the team" : String).length ≤ 200 :=
  sections_amended.2.2.1 sectionDemoText sectionKeywords
    "lead product strategy and roadmap for the team" (by decide)

/-! ### C7: frequency tables (`Counter.most_common`) -/

theorem insertByCountDesc_perm (p : String × Nat) (l : List (String × Nat)) :
    (insertByCountDesc p l).Perm (p :: l) := by
  induction l with
  | nil => exact List.Perm.refl _
  | cons q qs ih =>
    simp only [insertByCountDesc]
    split
    · exact List.Perm.refl _
    · exact (ih.cons q).trans (List.Perm.swap p q qs)

theorem sortByCountDesc_perm (l : List (String × Nat)) :
    (sortByCountDesc l).Perm l := by
  suffices haux : ∀ (l' acc : List (String × Nat)),
      (List.foldl (fun acc p => insertByCountDesc p acc) acc l').Perm
        (acc ++ l') by
    simpa using haux l []
  intro l'
  induction l' with
  | nil => intro acc; simp
  | cons p l'' ih =>
    intro acc
    simp only [List.foldl_cons]
    refine (ih (insertByCountDesc p acc)).trans ?_
    refine (List.Perm.append_right l'' (insertByCountDesc_perm p acc)).trans ?_
    exact List.perm_middle.symm

theorem insertByCountDesc_pairwise (f : String × Nat → Nat) (p : String × Nat)
    (l : List (String × Nat))
    (hD : l.Pairwise (fun a b => b.2 ≤ a.2))
    (hT : l.Pairwise (fun a b => a.2 = b.2 → f a < f b))
    (hf : ∀ q ∈ l, f q < f p) :
    (insertByCountDesc p l).Pairwise (fun a b => b.2 ≤ a.2) ∧
    (insertByCountDesc p l).Pairwise (fun a b => a.2 = b.2 → f a < f b) := by
  induction l with
  | nil => simp [insertByCountDesc]
  | cons q qs ih =>
    rcases List.pairwise_cons.mp hD with ⟨hDq, hDqs⟩
    rcases List.pairwise_cons.mp hT with ⟨hTq, hTqs⟩
    simp only [insertByCountDesc]
    split
    · rename_i hlt
      constructor
      · refine List.pairwise_cons.mpr ⟨?_, hD⟩
        intro b hb
        rcases List.mem_cons.mp hb with rfl | hb'
        · omega
        · have := hDq b hb'
          omega
      · refine List.pairwise_cons.mpr ⟨?_, hT⟩
        intro b hb heq
        rcases List.mem_cons.mp hb with rfl | hb'
        · omega
        · have := hDq b hb'
          omega
    · rename_i hnlt
      have ihres := ih hDqs hTqs (fun b hb => hf b (List.mem_cons_of_mem _ hb))
      constructor
      · refine List.pairwise_cons.mpr ⟨?_, ihres.1⟩
        intro b hb
        have hb' := (insertByCountDesc_perm p qs).mem_iff.mp hb
        rcases List.mem_cons.mp hb' with rfl | hb''
        · omega
        · exact hDq b hb''
      · refine List.pairwise_cons.mpr ⟨?_, ihres.2⟩
        intro b hb heq
        have hb' := (insertByCountDesc_perm p qs).mem_iff.mp hb
        rcases List.mem_cons.mp hb' with rfl | hb''
        · exact hf q (List.mem_cons_self q qs)
        · exact hTq b hb'' heq

theorem sortByCountDesc_pairwise (f : String × Nat → Nat)
    (l : List (String × Nat))
    (hl : l.Pairwise (fun a b => f a < f b)) :
    (sortByCountDesc l).Pairwise (fun a b => b.2 ≤ a.2) ∧
    (sortByCountDesc l).Pairwise (fun a b => a.2 = b.2 → f a < f b) := by
  suffices haux : ∀ (l' acc : List (String × Nat)),
      acc.Pairwise (fun a b => b.2 ≤ a.2) →
      acc.Pairwise (fun a b => a.2 = b.2 → f a < f b) →
      (∀ a ∈ acc, ∀ b ∈ l', f a < f b) →
      l'.Pairwise (fun a b => f a < f b) →
      (List.foldl (fun acc p => insertByCountDesc p acc) acc l').Pairwise
          (fun a b => b.2 ≤ a.2) ∧
      (List.foldl (fun acc p => insertByCountDesc p acc) acc l').Pairwise
          (fun a b => a.2 = b.2 → f a < f b) by
    exact haux l [] (by simp) (by simp) (by simp) hl
  intro l'
  induction l' with
  | nil => intro acc h1 h2 _ _; exact ⟨h1, h2⟩
  | cons p l'' ih =>
    intro acc h1 h2 hcross hl'
    rcases List.pairwise_cons.mp hl' with ⟨hpl, hl''⟩
    have hins := insertByCountDesc_pairwise f p acc h1 h2
      (fun q hq => hcross q hq p (List.mem_cons_self _ _))
    simp only [List.foldl_cons]
    apply ih
    · exact hins.1
    · exact hins.2
    · intro a ha b hb
      have ha' := (insertByCountDesc_perm p acc).mem_iff.mp ha
      rcases List.mem_cons.mp ha' with rfl | ha''
      · exact hpl b hb
      · exact hcross a ha'' b (List.mem_cons_of_mem _ hb)
    · exact hl''

theorem dedupFirstAux_pairwise_indexOf :
    ∀ (l seen : List String),
      (dedupFirstAux seen l).Pairwise
        (fun a b => l.indexOf a < l.indexOf b) := by
  intro l
  induction l with
  | nil => intro seen; simp [dedupFirstAux]
  | cons x xs ih =>
    intro seen
    simp only [dedupFirstAux]
    split
    · rename_i hx
      refine List.Pairwise.imp_of_mem ?_ (ih seen)
      intro a b ha hb hab
      have haa := (mem_dedupFirstAux a xs seen).mp ha
      have hbb := (mem_dedupFirstAux b xs seen).mp hb
      have hax : x ≠ a := fun h => haa.2 (h ▸ hx)
      have hbx : x ≠ b := fun h => hbb.2 (h ▸ hx)
      rw [List.indexOf_cons_ne _ hax, List.indexOf_cons_ne _ hbx]
      omega
    · rename_i hx
      refine List.pairwise_cons.mpr ⟨?_, ?_⟩
      · intro b hb
        have hbb := (mem_dedupFirstAux b xs (x :: seen)).mp hb
        have hbx : x ≠ b := fun h =>
          hbb.2 (h ▸ List.mem_cons_self x seen)
        rw [List.indexOf_cons_self, List.indexOf_cons_ne _ hbx]
        omega
      · refine List.Pairwise.imp_of_mem ?_ (ih (x :: seen))
        intro a b ha hb hab
        have haa := (mem_dedupFirstAux a xs (x :: seen)).mp ha
        have hbb := (mem_dedupFirstAux b xs (x :: seen)).mp hb
        have hax : x ≠ a := fun h =>
          haa.2 (h ▸ List.mem_cons_self x seen)
        have hbx : x ≠ b := fun h =>
          hbb.2 (h ▸ List.mem_cons_self x seen)
        rw [List.indexOf_cons_ne _ hax, List.indexOf_cons_ne _ hbx]
        omega

theorem mostCommon_spec (n : Nat) (l : List String) :
    (mostCommon n l).length ≤ n ∧
    (∀ p ∈ mostCommon n l, p.1 ∈ l ∧ p.2 = l.count p.1) ∧
    (mostCommon n l).Pairwise (fun p q =>
      q.2 ≤ p.2 ∧ (p.2 = q.2 → l.indexOf p.1 < l.indexOf q.1)) := by
  have hperm := sortByCountDesc_perm (counterOf l)
  have hpair : (counterOf l).Pairwise
      (fun p q => l.indexOf p.1 < l.indexOf q.1) := by
    unfold counterOf
    rw [List.pairwise_map]
    exact dedupFirstAux_pairwise_indexOf l []
  have hsorted := sortByCountDesc_pairwise
    (fun p => l.indexOf p.1) (counterOf l) hpair
  refine ⟨?_, ?_, ?_⟩
  · unfold mostCommon
    rw [List.length_take]
    omega
  · intro p hp
    have hp' : p ∈ sortByCountDesc (counterOf l) :=
      (List.take_sublist _ _).subset hp
    have hp'' : p ∈ counterOf l := hperm.mem_iff.mp hp'
    unfold counterOf at hp''
    rw [List.mem_map] at hp''
    obtain ⟨x, hx, rfl⟩ := hp''
    exact ⟨((mem_dedupFirstAux x l []).mp hx).1, rfl⟩
  · exact List.Pairwise.sublist (List.take_sublist _ _)
      (hsorted.1.and hsorted.2)

/-- C7: for every accepted batch, the three frequency tables are exactly
`Counter(...).most_common` of the flattened per-document lists (counts
over all documents), and `mostCommon` is ordered by count descending with
ties in first-occurrence order, counts each entry exactly, and truncates
to the requested cap (50 for skills, 30 for responsibilities and
qualifications). -/
theorem frequency_tables (minReq : Nat) (descs : List JobDescription)
    (n : Nat) (l : List String) (h : minReq ≤ descs.length) :
    ((analyze_multiple_descriptions minReq descs).toOption.map
        AnalysisResult.common_skills =
      some (mostCommon 50
        (((descs.map analyze_job_description).map Insight.skills).flatten))) ∧
    ((analyze_multiple_descriptions minReq descs).toOption.map
        AnalysisResult.common_responsibilities =
      some (mostCommon 30
        (((descs.map analyze_job_description).map
            Insight.responsibilities).flatten))) ∧
    ((analyze_multiple_descriptions minReq descs).toOption.map
        AnalysisResult.common_qualifications =
      some (mostCommon 30
        (((descs.map analyze_job_description).map
            Insight.qualifications).flatten))) ∧
    (mostCommon n l).length ≤ n ∧
    (∀ p ∈ mostCommon n l, p.1 ∈ l ∧ p.2 = l.count p.1) ∧
    (mostCommon n l).Pairwise (fun p q =>
      q.2 ≤ p.2 ∧ (p.2 = q.2 → l.indexOf p.1 < l.indexOf q.1)) := by
  have hnot : ¬(descs.length < minReq) := Nat.not_lt.mpr h
  refine ⟨?_, ?_, ?_, (mostCommon_spec n l).1, (mostCommon_spec n l).2.1,
    (mostCommon_spec n l).2.2⟩ <;>
  · unfold analyze_multiple_descriptions analyzeBatchInstrumented
    rw [if_neg hnot]
    rfl

/-- C7 witness: the skills table of a concrete accepted batch. -/
theorem frequency_tables_witness :
    (analyze_multiple_descriptions 3 analyzerDemoBatch).toOption.map
        AnalysisResult.common_skills =
      some (mostCommon 50
        (((analyzerDemoBatch.map analyze_job_description).map
            Insight.skills).flatten)) :=
  (frequency_tables 3 analyzerDemoBatch 1 [] (by decide)).1

/-! ### C8: salary-market summary absence -/

/-- `_extract_salary_info` sets `min` and `max` together: one is present
exactly when the other is. -/
theorem salary_min_max_together (sr : Option String) (t : String) :
    (_extract_salary_info sr t).min.isSome =
      (_extract_salary_info sr t).max.isSome := by
  have hp : ∀ s : String, (parseSalaryNumbers s).min.isSome =
      (parseSalaryNumbers s).max.isSome := by
    intro s
    unfold parseSalaryNumbers
    split <;> rfl
  unfold _extract_salary_info
  repeat' split
  all_goals first | rfl | apply hp

/-- C8: the batch salary summary is computed only from documents whose
insight carries a fully parsed salary; for every accepted batch in which
no document has one (min and max both present), the `salary_insights`
field of the result is `None`, never an empty or zero-valued summary. -/
theorem salary_insights_absent (minReq : Nat) (descs : List JobDescription)
    (h1 : minReq ≤ descs.length)
    (h2 : ∀ d ∈ descs,
      ((analyze_job_description d).salary_range.min.isSome &&
        (analyze_job_description d).salary_range.max.isSome) = false) :
    (analyze_multiple_descriptions minReq descs).toOption.map
      AnalysisResult.salary_insights = some none := by
  have hnot : ¬(descs.length < minReq) := Nat.not_lt.mpr h1
  have hsal : ∀ d ∈ descs,
      salaryMinTruthy (analyze_job_description d).salary_range = false := by
    intro d hd
    have hdm := h2 d hd
    have htog : ((analyze_job_description d).salary_range).min.isSome =
        ((analyze_job_description d).salary_range).max.isSome :=
      salary_min_max_together d.salary_range d.description
    unfold salaryMinTruthy
    cases hmin : (analyze_job_description d).salary_range.min with
    | none => rfl
    | some m =>
      exfalso
      rw [hmin] at htog hdm
      simp at htog
      simp [htog] at hdm
  have hsr : (descs.map analyze_job_description).filterMap
      (fun i => if salaryMinTruthy i.salary_range = true
        then some i.salary_range else none) = [] := by
    rw [List.filterMap_eq_nil_iff]
    intro i hi
    rw [List.mem_map] at hi
    obtain ⟨d, hd, rfl⟩ := hi
    simp [hsal d hd]
  unfold analyze_multiple_descriptions analyzeBatchInstrumented
  rw [if_neg hnot]
  simp only [hsr]
  rfl

/-- C8 witness: a concrete accepted batch with no parseable salary
anywhere yields an absent salary summary. -/
theorem salary_insights_absent_witness :
    (analyze_multiple_descriptions 3 analyzerDemoBatch).toOption.map
      AnalysisResult.salary_insights = some none :=
  salary_insights_absent 3 analyzerDemoBatch (by decide) (by decide)

/-! ### C10: market comparison always present -/

/-- C10: every accepted and analyzed batch carries a present (non-`None`)
market comparison, containing the experience-level histogram, the
remote-policy histogram, and the common-requirements record with its
top-skills list and education-requirement frequency — independently of
salary data or detected skills. -/
theorem market_comparison_present (minReq : Nat) (descs : List JobDescription)
    (h : minReq ≤ descs.length) :
    ((analyze_multiple_descriptions minReq descs).toOption.map
        AnalysisResult.market_comparison =
      some (some (_generate_market_comparison
        (descs.map analyze_job_description)))) ∧
    ((_generate_market_comparison
        (descs.map analyze_job_description)).experience_levels =
      counterOf ((descs.map analyze_job_description).map
        Insight.experience_level)) ∧
    ((_generate_market_comparison
        (descs.map analyze_job_description)).remote_policies =
      counterOf ((descs.map analyze_job_description).map
        Insight.remote_policy)) ∧
    ((_generate_market_comparison
        (descs.map analyze_job_description)).common_requirements.top_skills =
      (mostCommon 10 (((descs.map analyze_job_description).map
        Insight.skills).flatten)).map Prod.fst) ∧
    ((_generate_market_comparison
        (descs.map
          analyze_job_description)).common_requirements.education_requirement_frequency =
      (((descs.map analyze_job_description).filter
          (fun i => !i.required_education.isEmpty)).length,
        (descs.map analyze_job_description).length)) := by
  have hnot : ¬(descs.length < minReq) := Nat.not_lt.mpr h
  refine ⟨?_, rfl, rfl, rfl, rfl⟩
  unfold analyze_multiple_descriptions analyzeBatchInstrumented
  rw [if_neg hnot]
  rfl

/-- C10 witness: the market comparison of a concrete accepted batch is
present. -/
theorem market_comparison_present_witness :
    (analyze_multiple_descriptions 3 analyzerDemoBatch).toOption.map
        AnalysisResult.market_comparison =
      some (some (_generate_market_comparison
        (analyzerDemoBatch.map analyze_job_description))) :=
  (market_comparison_present 3 analyzerDemoBatch (by decide)).1
